import Mathlib

/-!
Verification development for the Resource Usage App frontend
(src/frontend/src/api.js, src/frontend/src/App.js, src/frontend/script.js)
and for the two backend decision components described by the specification
(the hybrid summarization selector and the Copilot command router), whose
source is not part of the repository and is therefore modelled from the
specification text.

JSON values are modelled as an inductive type; JS objects are association
lists of string keys.  Numbers are modelled as integers: no claim in scope
depends on floating-point behaviour.  Strict equality between JSON
primitives is structural, which matches the JS operator on the primitive
values (strings, numbers, booleans, null) that appear as record ids here.
-/

inductive Json where
  | str : String → Json
  | num : Int → Json
  | bool : Bool → Json
  | null : Json
  | obj : List (String × Json) → Json
  | arr : List Json → Json
deriving Repr

mutual

/-- Structural equality on JSON values, modelling the JS strict-equality
test on the primitive values used as record ids. -/
def Json.beq : Json → Json → Bool
  | .str a, .str b => a == b
  | .num a, .num b => a == b
  | .bool a, .bool b => a == b
  | .null, .null => true
  | .obj a, .obj b => Json.beqFields a b
  | .arr a, .arr b => Json.beqList a b
  | _, _ => false

def Json.beqFields : List (String × Json) → List (String × Json) → Bool
  | [], [] => true
  | (k, v) :: rest, (k2, v2) :: rest2 => k == k2 && Json.beq v v2 && Json.beqFields rest rest2
  | _, _ => false

def Json.beqList : List Json → List Json → Bool
  | [], [] => true
  | a :: as, b :: bs => Json.beq a b && Json.beqList as bs
  | _, _ => false

end

mutual

/-- JS string coercion of a JSON value, as performed by a template literal.
Objects coerce to the usual bracketed tag, arrays to their comma-joined
elements. -/
def jsToStr : Json → String
  | .str s => s
  | .num n => toString n
  | .bool b => cond b "true" "false"
  | .null => "null"
  | .obj _ => "[object Object]"
  | .arr l => jsToStrList l

def jsToStrList : List Json → String
  | [] => ""
  | [a] => jsToStr a
  | a :: b :: rest => jsToStr a ++ "," ++ jsToStrList (b :: rest)

end

/-- JS string coercion of a possibly-undefined value (an absent property
reads as undefined). -/
def jsTemplate : Option Json → String
  | none => "undefined"
  | some v => jsToStr v

/-- First binding of a key in an association list (JS object properties
have unique keys, so first and last coincide on parsed JSON). -/
def lookupField {α : Type} (k : String) : List (String × α) → Option α
  | [] => none
  | (k2, v) :: rest => if k2 = k then some v else lookupField k rest

/-- JS property access j.k: undefined (none) on non-objects and missing
keys. -/
def jget (k : String) (j : Json) : Option Json :=
  match j with
  | .obj o => lookupField k o
  | _ => none

/-- JS strict equality between two possibly-undefined values, as in the
test s.id === id of App.js. -/
def jsEqOpt : Option Json → Option Json → Bool
  | none, none => true
  | some a, some b => Json.beq a b
  | _, _ => false

/-- The fields contributed by a value under JS object spread: an object
contributes its properties, the other values appearing here (numbers,
booleans, null, arrays of records) contribute none. -/
def fieldsOf : Json → List (String × Json)
  | .obj o => o
  | _ => []

/-- JS object-literal spread of two objects: keys of the first in order,
values overridden by the second where present, then the new keys of the
second in order. -/
def spreadFields (s r : List (String × Json)) : List (String × Json) :=
  s.map (fun kv => (kv.1, (lookupField kv.1 r).getD kv.2))
    ++ r.filter (fun kv => (lookupField kv.1 s).isNone)

/-- The JS expression spreading a stored record and a response record,
as in App.js refreshSummary. -/
def jsSpread (s r : Json) : Json :=
  Json.obj (spreadFields (fieldsOf s) (fieldsOf r))

/-!
HTTP request model (src/frontend/src/api.js and src/frontend/script.js).
A fetch call is modelled by an oracle from requests to responses; the
response carries the JSON value that res.json() parses from its body.
-/

/-- An uploaded file object; its contents are opaque to the frontend. -/
structure JsFile where
  name : String
deriving Repr, DecidableEq

/-- Request body: absent (GET), a JSON.stringify of a value, or a
FormData with the single field "file" (whose value may be undefined in
the legacy script). -/
inductive Body where
  | empty : Body
  | jsonData : Json → Body
  | formData : Option JsFile → Body
deriving Repr

/-- An HTTP request as assembled by the frontend fetch calls. -/
structure Request where
  url : String
  method : String
  headers : List (String × String)
  body : Body
deriving Repr

/-- An HTTP response; jsonBody is the value res.json() resolves to. -/
structure Response where
  jsonBody : Json
deriving Repr

/-- The network, modelled as an oracle from requests to responses. -/
def Fetch : Type := Request → Response

/-- The environment variables read by api.js: REACT_APP_BACKEND_URL and
REACT_APP_COPILOT_API_KEY. -/
structure Env where
  base : String
  key : String
deriving Repr, DecidableEq

/-- api.js defaultHeaders. -/
def defaultHeaders (key : String) : List (String × String) :=
  [("X-API-Key", key), ("Content-Type", "application/json")]

/-- The request assembled by api.js postJSON. -/
def postJSONRequest (env : Env) (endpoint : String) (data : Json) : Request :=
  { url := env.base ++ endpoint
    method := "POST"
    headers := defaultHeaders env.key
    body := Body.jsonData data }

/-- The request assembled by api.js getJSON. -/
def getJSONRequest (env : Env) (endpoint : String) : Request :=
  { url := env.base ++ endpoint
    method := "GET"
    headers := [("X-API-Key", env.key)]
    body := Body.empty }

/-- The request assembled by api.js postFile; no Content-Type is set for
FormData. -/
def postFileRequest (env : Env) (endpoint : String) (file : JsFile) : Request :=
  { url := env.base ++ endpoint
    method := "POST"
    headers := [("X-API-Key", env.key)]
    body := Body.formData (some file) }

/-- api.js postJSON: sends the request and returns the parsed JSON body;
the request sent is returned alongside for the network trace. -/
def postJSON (env : Env) (fetch : Fetch) (endpoint : String) (data : Json) : Json × Request :=
  ((fetch (postJSONRequest env endpoint data)).jsonBody, postJSONRequest env endpoint data)

/-- api.js getJSON. -/
def getJSON (env : Env) (fetch : Fetch) (endpoint : String) : Json × Request :=
  ((fetch (getJSONRequest env endpoint)).jsonBody, getJSONRequest env endpoint)

/-- api.js postFile. -/
def postFile (env : Env) (fetch : Fetch) (endpoint : String) (file : JsFile) : Json × Request :=
  ((fetch (postFileRequest env endpoint file)).jsonBody, postFileRequest env endpoint file)

/-- The API key literal hard-coded in the legacy script.js. -/
def legacyApiKey : String := "resource-app-copilot-key-2024"

/-- The request assembled by the legacy script.js uploadPDF (relative
URL, hard-coded key, FormData body from the file input, which may be
undefined when no file is chosen). -/
def legacyUploadPDFRequest (file : Option JsFile) : Request :=
  { url := "/api/upload-pdf"
    method := "POST"
    headers := [("X-API-Key", legacyApiKey)]
    body := Body.formData file }

/-- Legacy script.js uploadPDF: sends the upload and reads data.summary
from the parsed response (the DOM write is out of scope). -/
def legacyUploadPDF (fetch : Fetch) (file : Option JsFile) : Option Json × Request :=
  (jget "summary" (fetch (legacyUploadPDFRequest file)).jsonBody, legacyUploadPDFRequest file)

/-!
Frontend application state and operations (src/frontend/src/App.js).
Each operation returns the next state together with the list of requests
it sent, in order.  The fetch oracle is total: network failure handling
(the try/catch of loadData) is outside the stated claims.
-/

/-- The useState containers of the App component. -/
structure AppState where
  activeTab : String
  notes : List Json
  noteTitle : String
  noteContent : String
  schedules : List Json
  summaries : List Json
  selectedFile : Option JsFile
  copilotResponse : Option Json
  online : Bool

/-- The elements of a JSON array; the list endpoints respond with
arrays, other values store as the empty list. -/
def asArr : Json → List Json
  | .arr l => l
  | _ => []

/-- App.js loadData: the three initial GET requests populating notes,
schedules and summaries. -/
def loadData (env : Env) (fetch : Fetch) (st : AppState) : AppState × List Request :=
  let rn := getJSON env fetch "/api/notes"
  let rs := getJSON env fetch "/api/schedule"
  let ru := getJSON env fetch "/api/summaries"
  ({ st with
      notes := asArr rn.1
      schedules := asArr rs.1
      summaries := asArr ru.1 },
   [rn.2, rs.2, ru.2])

/-- App.js createNote: a falsy (empty) title or content aborts before
any request; otherwise the response is appended to notes and both
input fields are cleared. -/
def createNote (env : Env) (fetch : Fetch) (st : AppState) : AppState × List Request :=
  if st.noteTitle = "" ∨ st.noteContent = "" then (st, [])
  else
    let r := postJSON env fetch "/api/notes"
      (Json.obj [("title", Json.str st.noteTitle), ("content", Json.str st.noteContent)])
    ({ st with notes := st.notes ++ [r.1], noteTitle := "", noteContent := "" }, [r.2])

/-- App.js createSchedule; now is the ISO timestamp new Date()
produces at the call. -/
def createSchedule (env : Env) (fetch : Fetch) (st : AppState) (now : String) :
    AppState × List Request :=
  let r := postJSON env fetch "/api/schedule"
    (Json.obj
      [("title", Json.str "Test Reminder"),
       ("description", Json.str "This is a reminder"),
       ("scheduled_time", Json.str now),
       ("notification_type", Json.str "reminder")])
  ({ st with schedules := st.schedules ++ [r.1] }, [r.2])

/-- App.js refreshSummary: posts to /api/refresh-summary/ followed by
the coerced id, then maps over summaries, spreading the response into
every record whose id strictly equals the argument. -/
def refreshSummary (env : Env) (fetch : Fetch) (st : AppState) (id : Option Json) :
    AppState × List Request :=
  let r := postJSON env fetch ("/api/refresh-summary/" ++ jsTemplate id) (Json.obj [])
  ({ st with
      summaries := st.summaries.map
        (fun s => if jsEqOpt (jget "id" s) id then jsSpread s r.1 else s) },
   [r.2])

/-- App.js uploadPDF: a null selected file aborts before any request;
otherwise the response record is appended to summaries and the
selection is cleared. -/
def uploadPDF (env : Env) (fetch : Fetch) (st : AppState) : AppState × List Request :=
  match st.selectedFile with
  | none => (st, [])
  | some f =>
    let r := postFile env fetch "/api/upload-pdf" f
    ({ st with summaries := st.summaries ++ [r.1], selectedFile := none }, [r.2])

/-- App.js runCopilotCommand: posts the command and stores the response
property of the result. -/
def runCopilotCommand (env : Env) (fetch : Fetch) (st : AppState) (command : String) :
    AppState × List Request :=
  let r := postJSON env fetch "/api/copilot/process-command"
    (Json.obj [("command", Json.str command)])
  ({ st with copilotResponse := jget "response" r.1 }, [r.2])

/-- The five endpoint paths enumerated by the documentation. -/
def fiveEndpoints : List String :=
  ["/api/copilot/process-command", "/api/upload-pdf", "/api/notes",
   "/api/schedule", "/api/summaries"]

/-!
Spec-modelled backend components.  The repository ships no backend
source; the summarization selector, the command router and the refresh
endpoint are modelled from the specification text (sections 4.1, 4.2
and the data model).  Text processing works on character lists so that
every function reduces in the kernel.
-/

/-- ASCII lowercasing of one character. -/
def lowerChar (c : Char) : Char :=
  if 65 ≤ c.toNat ∧ c.toNat ≤ 90 then Char.ofNat (c.toNat + 32) else c

/-- Split a character list on whitespace, dropping empty pieces;
cur accumulates the current word reversed, acc the finished words
reversed. -/
def splitWsAux (cur : List Char) (acc : List (List Char)) : List Char → List (List Char)
  | [] => if cur = [] then acc.reverse else (cur.reverse :: acc).reverse
  | c :: rest =>
    if c.isWhitespace then
      if cur = [] then splitWsAux [] acc rest
      else splitWsAux [] (cur.reverse :: acc) rest
    else splitWsAux (c :: cur) acc rest

/-- Modelled from the spec: tokenization of the offline fallback path,
lowercase the text and split it into whitespace-separated words. -/
def tokenizeLower (t : String) : List (List Char) :=
  splitWsAux [] [] (t.data.map lowerChar)

/-- Modelled from the spec: the stopword list of the offline fallback
(the exact list is an implementation choice the spec leaves open; this
one is fixed and documented here). -/
def stopwords : List (List Char) :=
  ["the", "a", "an", "and", "or", "but", "is", "are", "was", "were",
   "of", "to", "in", "on", "for", "with", "at", "by", "from", "as",
   "it", "this", "that", "be", "been"].map String.data

/-- Occurrences of a word in a word list. -/
def countOcc (w : List Char) (l : List (List Char)) : Nat :=
  (l.filter (fun x => x == w)).length

/-- Deduplicate keeping first occurrences; seen collects the words
already emitted. -/
def dedupAux (seen : List (List Char)) : List (List Char) → List (List Char)
  | [] => []
  | a :: rest =>
    if seen.contains a then dedupAux seen rest
    else a :: dedupAux (a :: seen) rest

/-- Insert into a list sorted by strictly descending key, after existing
equal keys (stable). -/
def insertDesc (key : List Char → Nat) (a : List Char) :
    List (List Char) → List (List Char)
  | [] => [a]
  | b :: rest => if key b < key a then a :: b :: rest else b :: insertDesc key a rest

/-- Stable insertion sort by descending key. -/
def sortDesc (key : List Char → Nat) : List (List Char) → List (List Char)
  | [] => []
  | a :: rest => insertDesc key a (sortDesc key rest)

/-- Join words with single spaces. -/
def joinWords : List (List Char) → String
  | [] => ""
  | [w] => String.mk w
  | w :: v :: rest => String.mk w ++ " " ++ joinWords (v :: rest)

/-- Result of the summarization selector: the summary text and the tag
of the path actually taken. -/
structure SummaryResult where
  summary : String
  method : String
deriving Repr, DecidableEq

/-- Modelled from the spec: the defined result for empty or
whitespace-only input on the fallback path. -/
def emptyContentResult : SummaryResult :=
  ⟨"No content to summarize", "keyword-fallback"⟩

/-- Modelled from the spec: the offline keyword-extraction fallback.
Tokenize, remove stopwords (keeping all words when only stopwords
occur), rank terms by frequency, and compose a short summary from the
top-ranked terms.  Total and side-effect-free. -/
def keywordFallback (text : String) : SummaryResult :=
  let ws := tokenizeLower text
  if ws.isEmpty then emptyContentResult
  else
    let content := ws.filter (fun w => !(stopwords.contains w))
    let ranked := if content.isEmpty then ws else content
    let terms := (sortDesc (fun w => countOcc w ranked) (dedupAux [] ranked)).take 3
    ⟨joinWords terms, "keyword-fallback"⟩

/-- Modelled from the spec: the hybrid summarization selector.  The AI
collaborator outcome is an explicit parameter: some output on success,
none on timeout, error response or unreachable network.  With the
network disallowed no AI attempt is made. -/
def summarize (text : String) (allowNetwork : Bool) (aiResult : Option String) :
    SummaryResult :=
  if allowNetwork then
    match aiResult with
    | some s => ⟨s, "ai"⟩
    | none => keywordFallback text
  else keywordFallback text

/-- The fixed set of intents of the command router. -/
inductive Intent where
  | pdf
  | note
  | schedule
  | summaries
  | help
deriving Repr, DecidableEq

/-- The ephemeral result of routing one command. -/
structure CommandResult where
  intent : Intent
  response : String
deriving Repr, DecidableEq

/-- The canned help response listing the supported intents, returned for
unknown or unmatched input. -/
def helpResponse : String :=
  "I can help you with: summarize a PDF, create a note, set a reminder, or show summaries"

/-- True when the lowercased text contains the pattern as a substring;
pat and text are compared over lowercased characters. -/
def startsWithL : List Char → List Char → Bool
  | _, [] => true
  | [], _ :: _ => false
  | a :: as, b :: bs => a == b && startsWithL as bs

/-- Substring occurrence over character lists. -/
def hasSubL (pat : List Char) : List Char → Bool
  | [] => pat.isEmpty
  | a :: as => startsWithL (a :: as) pat || hasSubL pat as

/-- Keyword test of the router: the lowercased command contains the
(lowercase) keyword. -/
def strContains (s pat : String) : Bool :=
  hasSubL pat.data (s.data.map lowerChar)

/-- Modelled from the spec: the command router.  Classification is
keyword based over the lowercased command with the fixed priority
order pdf, schedule, note, summaries, help; unmatched input yields the
canned help response. -/
def route (command : String) : CommandResult :=
  if strContains command "summarize" || strContains command "pdf" then
    ⟨Intent.pdf, "Upload a PDF and I will summarize it for you"⟩
  else if strContains command "remind" || strContains command "schedule" then
    ⟨Intent.schedule, "Creating a reminder for you"⟩
  else if strContains command "note" then
    ⟨Intent.note, "Creating a note for you"⟩
  else if strContains command "summaries" || strContains command "show" then
    ⟨Intent.summaries, "Here are your stored summaries"⟩
  else
    ⟨Intent.help, helpResponse⟩

/-- Modelled from the spec: the response of the backend refresh
endpoint, absent from src/.  It re-runs the summarization selector on
the stored source text and returns the stored record with summary and
generation_method overwritten, preserving id, filename when present,
and source_kind. -/
def refreshResponse (s : Json) (newSummary newMethod : String) : Json :=
  Json.obj
    ([("id", (jget "id" s).getD Json.null)]
      ++ (match jget "filename" s with
          | some f => [("filename", f)]
          | none => [])
      ++ [("summary", Json.str newSummary),
          ("source_kind", (jget "source_kind" s).getD Json.null),
          ("generation_method", Json.str newMethod)])

/-!
Helper lemmas.
-/

mutual

theorem Json.beq_refl : ∀ j : Json, Json.beq j j = true
  | .str s => by simp [Json.beq]
  | .num n => by simp [Json.beq]
  | .bool b => by simp [Json.beq]
  | .null => rfl
  | .obj o => by simpa [Json.beq] using Json.beqFields_refl o
  | .arr l => by simpa [Json.beq] using Json.beqList_refl l

theorem Json.beqFields_refl : ∀ l : List (String × Json), Json.beqFields l l = true
  | [] => rfl
  | (k, v) :: rest => by
      simp [Json.beqFields]
      exact ⟨Json.beq_refl v, Json.beqFields_refl rest⟩

theorem Json.beqList_refl : ∀ l : List Json, Json.beqList l l = true
  | [] => rfl
  | a :: as => by
      simp [Json.beqList]
      exact ⟨Json.beq_refl a, Json.beqList_refl as⟩

end

theorem lookupField_append_some {α : Type} {k : String} {l1 l2 : List (String × α)} {v : α}
    (h : lookupField k l1 = some v) : lookupField k (l1 ++ l2) = some v := by
  induction l1 with
  | nil => simp [lookupField] at h
  | cons kv rest ih =>
    obtain ⟨k2, v2⟩ := kv
    by_cases hk : k2 = k
    · simp [lookupField, hk] at h ⊢; exact h
    · simp [lookupField, hk] at h ⊢; exact ih h

theorem lookupField_append_none {α : Type} {k : String} {l1 l2 : List (String × α)}
    (h : lookupField k l1 = none) : lookupField k (l1 ++ l2) = lookupField k l2 := by
  induction l1 with
  | nil => simp [lookupField]
  | cons kv rest ih =>
    obtain ⟨k2, v2⟩ := kv
    by_cases hk : k2 = k
    · simp [lookupField, hk] at h
    · simp [lookupField, hk] at h ⊢; exact ih h

theorem lookupField_override {k : String} (b : List (String × Json)) :
    ∀ a : List (String × Json),
      lookupField k (a.map (fun kv => (kv.1, (lookupField kv.1 b).getD kv.2)))
        = (lookupField k a).map (fun v => (lookupField k b).getD v)
  | [] => by simp [lookupField]
  | (k2, v2) :: rest => by
    by_cases hk : k2 = k
    · simp [lookupField, hk]
    · simp [lookupField, hk]
      exact lookupField_override b rest

theorem lookupField_filter_notin {k : String} {a : List (String × Json)}
    (h : lookupField k a = none) :
    ∀ b : List (String × Json),
      lookupField k (b.filter (fun kv => (lookupField kv.1 a).isNone))
        = lookupField k b
  | [] => by simp [lookupField]
  | (k2, v2) :: rest => by
    by_cases hk : k2 = k
    · subst hk
      simp [lookupField, h, lookupField_filter_notin h rest]
    · by_cases hmem : lookupField k2 a = none
      · simp [lookupField, hmem, hk, lookupField_filter_notin h rest]
      · obtain ⟨w, hw⟩ := Option.ne_none_iff_exists.mp (by simpa using hmem)
        simp [lookupField, ← hw, hk, lookupField_filter_notin h rest]

theorem lookupField_spreadFields_some {k : String} {a b : List (String × Json)} {v : Json}
    (h : lookupField k a = some v) :
    lookupField k (spreadFields a b) = some ((lookupField k b).getD v) := by
  unfold spreadFields
  apply lookupField_append_some
  rw [lookupField_override b a, h]
  rfl

theorem lookupField_spreadFields_none {k : String} {a b : List (String × Json)}
    (h : lookupField k a = none) :
    lookupField k (spreadFields a b) = lookupField k b := by
  unfold spreadFields
  rw [lookupField_append_none, lookupField_filter_notin h b]
  rw [lookupField_override b a, h]
  rfl

theorem jget_obj_of_some {k : String} {s : Json} {v : Json} (h : jget k s = some v) :
    ∃ o, s = Json.obj o := by
  cases s <;> simp [jget] at h ⊢

theorem jget_jsSpread_some {k : String} {s r : Json} {v : Json}
    (h : jget k s = some v) :
    jget k (jsSpread s r) = some ((jget k r).getD v) := by
  obtain ⟨o, rfl⟩ := jget_obj_of_some h
  simp only [jget, fieldsOf] at h ⊢
  rw [jsSpread]
  simp only [jget, fieldsOf]
  rw [lookupField_spreadFields_some h]
  cases r <;> simp [fieldsOf, lookupField, jget]

theorem jget_jsSpread_none {k : String} {s : Json} {r : Json} {o : List (String × Json)}
    (hs : s = Json.obj o) (h : jget k s = none) :
    jget k (jsSpread s r) = jget k r := by
  subst hs
  simp only [jget, fieldsOf] at h
  rw [jsSpread]
  simp only [jget, fieldsOf]
  rw [lookupField_spreadFields_none h]
  cases r <;> simp [fieldsOf, lookupField, jget]

theorem jget_refreshResponse_id (s : Json) (ns nm : String) :
    jget "id" (refreshResponse s ns nm) = some ((jget "id" s).getD Json.null) := by
  cases hf : jget "filename" s <;>
    (simp only [refreshResponse, hf]; simp [jget, lookupField])

theorem jget_refreshResponse_filename (s : Json) (ns nm : String) :
    jget "filename" (refreshResponse s ns nm) = jget "filename" s := by
  cases hf : jget "filename" s <;>
    (simp only [refreshResponse, hf]; simp [jget, lookupField, hf])

theorem jget_refreshResponse_summary (s : Json) (ns nm : String) :
    jget "summary" (refreshResponse s ns nm) = some (Json.str ns) := by
  cases hf : jget "filename" s <;>
    (simp only [refreshResponse, hf]; simp [jget, lookupField])

theorem jget_refreshResponse_method (s : Json) (ns nm : String) :
    jget "generation_method" (refreshResponse s ns nm) = some (Json.str nm) := by
  cases hf : jget "filename" s <;>
    (simp only [refreshResponse, hf]; simp [jget, lookupField])

theorem mem_splitWsAux_ne_nil :
    ∀ (l : List Char) (cur : List Char) (acc : List (List Char)),
      (∀ w ∈ acc, w ≠ []) → ∀ w ∈ splitWsAux cur acc l, w ≠ []
  | [], cur, acc, hacc, w, hw => by
    by_cases hcur : cur = []
    · simp [splitWsAux, hcur] at hw
      exact hacc w (by simpa using hw)
    · simp [splitWsAux, hcur] at hw
      rcases hw with h | h
      · exact hacc w h
      · subst h; simpa using hcur
  | c :: rest, cur, acc, hacc, w, hw => by
    by_cases hws : c.isWhitespace
    · by_cases hcur : cur = []
      · rw [splitWsAux, if_pos hws, if_pos hcur] at hw
        exact mem_splitWsAux_ne_nil rest [] acc hacc w hw
      · rw [splitWsAux, if_pos hws, if_neg hcur] at hw
        refine mem_splitWsAux_ne_nil rest [] (cur.reverse :: acc) ?_ w hw
        intro x hx
        rcases List.mem_cons.mp hx with h | h
        · subst h; simpa using hcur
        · exact hacc x h
    · rw [splitWsAux, if_neg hws] at hw
      exact mem_splitWsAux_ne_nil rest (c :: cur) acc hacc w hw

theorem mem_tokenizeLower_ne_nil (t : String) : ∀ w ∈ tokenizeLower t, w ≠ [] :=
  mem_splitWsAux_ne_nil (t.data.map lowerChar) [] [] (by simp)

theorem mem_insertDesc {key : List Char → Nat} {a x : List Char} :
    ∀ {l : List (List Char)}, x ∈ insertDesc key a l → x = a ∨ x ∈ l := by
  intro l
  induction l with
  | nil => intro h; simp [insertDesc] at h; exact Or.inl h
  | cons b rest ih =>
    intro h
    rw [insertDesc] at h
    by_cases hlt : key b < key a
    · rw [if_pos hlt] at h
      rcases List.mem_cons.mp h with h | h
      · exact Or.inl h
      · exact Or.inr h
    · rw [if_neg hlt] at h
      rcases List.mem_cons.mp h with h | h
      · exact Or.inr (by simp [h])
      · rcases ih h with h | h
        · exact Or.inl h
        · exact Or.inr (by simp [h])

theorem mem_sortDesc {key : List Char → Nat} {x : List Char} :
    ∀ {l : List (List Char)}, x ∈ sortDesc key l → x ∈ l := by
  intro l
  induction l with
  | nil => intro h; simp [sortDesc] at h
  | cons a rest ih =>
    intro h
    rw [sortDesc] at h
    rcases mem_insertDesc h with h | h
    · simp [h]
    · exact List.mem_cons.mpr (Or.inr (ih h))

theorem mem_dedupAux {x : List Char} :
    ∀ {l : List (List Char)} {seen : List (List Char)}, x ∈ dedupAux seen l → x ∈ l := by
  intro l
  induction l with
  | nil => intro seen h; simp [dedupAux] at h
  | cons a rest ih =>
    intro seen h
    rw [dedupAux] at h
    by_cases hseen : seen.contains a
    · rw [if_pos hseen] at h
      exact List.mem_cons.mpr (Or.inr (ih h))
    · rw [if_neg hseen] at h
      rcases List.mem_cons.mp h with h | h
      · simp [h]
      · exact List.mem_cons.mpr (Or.inr (ih h))

theorem insertDesc_ne_nil (key : List Char → Nat) (a : List Char) :
    ∀ l : List (List Char), insertDesc key a l ≠ []
  | [] => by simp [insertDesc]
  | b :: rest => by
    rw [insertDesc]
    by_cases hlt : key b < key a
    · simp [hlt]
    · simp [hlt]

theorem sortDesc_ne_nil (key : List Char → Nat) {l : List (List Char)} (h : l ≠ []) :
    sortDesc key l ≠ [] := by
  cases l with
  | nil => exact absurd rfl h
  | cons a rest => rw [sortDesc]; exact insertDesc_ne_nil key a (sortDesc key rest)

theorem dedupAux_nil_ne_nil {l : List (List Char)} (h : l ≠ []) :
    dedupAux [] l ≠ [] := by
  cases l with
  | nil => exact absurd rfl h
  | cons a rest => simp [dedupAux]

theorem take3_ne_nil {l : List (List Char)} (h : l ≠ []) : l.take 3 ≠ [] := by
  cases l with
  | nil => exact absurd rfl h
  | cons a rest => simp

theorem joinWords_ne_empty :
    ∀ l : List (List Char), (∀ w ∈ l, w ≠ []) → l ≠ [] → joinWords l ≠ ""
  | [], _, h => absurd rfl h
  | [w], hall, _ => by
    have hw : w ≠ [] := hall w (by simp)
    rw [joinWords]
    intro hcon
    exact hw (congrArg String.data hcon)
  | w :: v :: rest, hall, _ => by
    rw [joinWords]
    intro hcon
    have hdata := congrArg String.data hcon
    simp [String.data_append] at hdata

theorem keywordFallback_method (text : String) :
    (keywordFallback text).method = "keyword-fallback" := by
  unfold keywordFallback
  by_cases h : (tokenizeLower text).isEmpty <;> simp [h, emptyContentResult]

theorem keywordFallback_empty (text : String) (h : tokenizeLower text = []) :
    keywordFallback text = emptyContentResult := by
  unfold keywordFallback
  simp [h]

theorem filter_branch_subset (p : List Char → Bool) (ws : List (List Char)) :
    ∀ x ∈ (if (ws.filter p).isEmpty then ws else ws.filter p), x ∈ ws := by
  by_cases hc : (ws.filter p).isEmpty
  · simp [hc]
  · simp only [hc, if_false]
    intro x hx
    exact (List.mem_filter.mp hx).1

theorem filter_branch_ne_nil (p : List Char → Bool) {ws : List (List Char)} (h : ws ≠ []) :
    (if (ws.filter p).isEmpty then ws else ws.filter p) ≠ [] := by
  cases hc : (ws.filter p).isEmpty with
  | false =>
    have hfil : ws.filter p ≠ [] := by
      intro hcon
      rw [hcon] at hc
      simp at hc
    simp [hc, hfil]
  | true => simp [hc, h]

theorem keywordFallback_summary_ne_empty (text : String) (h : tokenizeLower text ≠ []) :
    (keywordFallback text).summary ≠ "" := by
  have hie : (tokenizeLower text).isEmpty = false := by
    cases he : (tokenizeLower text).isEmpty
    · rfl
    · exact absurd (List.isEmpty_iff.mp he) h
  simp only [keywordFallback, hie, Bool.false_eq_true, if_false]
  apply joinWords_ne_empty
  · intro w hw
    have h1 := List.take_subset 3 _ hw
    have h2 := mem_sortDesc h1
    have h3 := mem_dedupAux h2
    exact mem_tokenizeLower_ne_nil text w
      (filter_branch_subset (fun w => !(stopwords.contains w)) (tokenizeLower text) w h3)
  · exact take3_ne_nil (sortDesc_ne_nil _
      (dedupAux_nil_ne_nil (filter_branch_ne_nil _ h)))

/-!
Concrete fixtures used by the witnesses and the counterexample.
-/

/-- A concrete environment: empty base URL, a test key. -/
def env0 : Env := ⟨"", "test-key"⟩

/-- A network oracle answering every request with an empty JSON object. -/
def fetchEmptyObj : Fetch := fun _ => ⟨Json.obj []⟩

/-- A concrete stored summary record. -/
def rec0 : Json :=
  Json.obj
    [("id", Json.num 1), ("filename", Json.str "doc.pdf"),
     ("summary", Json.str "old text"), ("source_kind", Json.str "pdf"),
     ("generation_method", Json.str "ai")]

/-- A concrete application state holding one summary record. -/
def st0 : AppState :=
  ⟨"pdf", [], "", "", [], [rec0], none, none, true⟩

/-- A state with a note form filled in. -/
def stNote : AppState :=
  ⟨"notes", [], "Meeting", "Discuss roadmap", [], [], none, none, true⟩

/-- A state with a file selected for upload. -/
def stFile : AppState :=
  ⟨"pdf", [], "", "", [], [], some ⟨"doc.pdf"⟩, none, true⟩

/-- A network oracle answering every request with the spec-modelled
refresh response for rec0. -/
def fetchRefresh0 : Fetch := fun _ => ⟨refreshResponse rec0 "fresh text" "keyword-fallback"⟩

/-!
Claim theorems.
-/

/-- C1: every HTTP request the frontend constructs — through postJSON,
getJSON and postFile of api.js, and through the legacy uploadPDF of
script.js — carries the shared-secret header X-API-Key. -/
theorem frontend_requests_include_api_key (env : Env) (endpoint : String) (data : Json)
    (file : JsFile) (f : Option JsFile) :
    ("X-API-Key", env.key) ∈ (postJSONRequest env endpoint data).headers ∧
    ("X-API-Key", env.key) ∈ (getJSONRequest env endpoint).headers ∧
    ("X-API-Key", env.key) ∈ (postFileRequest env endpoint file).headers ∧
    ("X-API-Key", legacyApiKey) ∈ (legacyUploadPDFRequest f).headers := by
  refine ⟨?_, ?_, ?_, ?_⟩ <;>
    simp [postJSONRequest, getJSONRequest, postFileRequest, legacyUploadPDFRequest,
      defaultHeaders]

/-- C2, counterexample: refreshSummary sends a request whose path,
/api/refresh-summary/1 here, is not one of the five documented
endpoints, so the frontend request surface is not exactly those five. -/
theorem refresh_endpoint_outside_documented_five :
    (refreshSummary env0 fetchEmptyObj st0 (some (Json.num 1))).2.map Request.url
        = ["/api/refresh-summary/1"] ∧
    "/api/refresh-summary/1" ∉ fiveEndpoints := by
  constructor
  · decide
  · decide

/-- C2, amended: every request any App.js operation sends targets one of
the five documented endpoints or the additional refresh path
/api/refresh-summary/ followed by the coerced id, and the legacy
script.js upload targets a documented endpoint. -/
theorem frontend_endpoint_surface (env : Env) (fetch : Fetch) (st : AppState)
    (id : Option Json) (cmd now : String) (f : Option JsFile) :
    ∀ req : Request,
      req ∈ (loadData env fetch st).2 ∨
      req ∈ (createNote env fetch st).2 ∨
      req ∈ (createSchedule env fetch st now).2 ∨
      req ∈ (refreshSummary env fetch st id).2 ∨
      req ∈ (uploadPDF env fetch st).2 ∨
      req ∈ (runCopilotCommand env fetch st cmd).2 ∨
      req = legacyUploadPDFRequest f →
      (∃ p, req.url = env.base ++ p ∧
        (p ∈ fiveEndpoints ∨ ∃ idStr, p = "/api/refresh-summary/" ++ idStr)) ∨
      req.url ∈ fiveEndpoints := by
  intro req h
  rcases h with h | h | h | h | h | h | h
  · simp [loadData, getJSON] at h
    rcases h with h | h | h <;> subst h <;> left
    · exact ⟨"/api/notes", rfl, Or.inl (by simp [fiveEndpoints])⟩
    · exact ⟨"/api/schedule", rfl, Or.inl (by simp [fiveEndpoints])⟩
    · exact ⟨"/api/summaries", rfl, Or.inl (by simp [fiveEndpoints])⟩
  · by_cases hc : st.noteTitle = "" ∨ st.noteContent = ""
    · simp [createNote, hc] at h
    · simp [createNote, hc, postJSON] at h
      subst h
      exact Or.inl ⟨"/api/notes", rfl, Or.inl (by simp [fiveEndpoints])⟩
  · simp [createSchedule, postJSON] at h
    subst h
    exact Or.inl ⟨"/api/schedule", rfl, Or.inl (by simp [fiveEndpoints])⟩
  · simp [refreshSummary, postJSON] at h
    subst h
    exact Or.inl ⟨"/api/refresh-summary/" ++ jsTemplate id, rfl,
      Or.inr ⟨jsTemplate id, rfl⟩⟩
  · cases hsel : st.selectedFile with
    | none => simp [uploadPDF, hsel] at h
    | some f2 =>
      simp [uploadPDF, hsel, postFile] at h
      subst h
      exact Or.inl ⟨"/api/upload-pdf", rfl, Or.inl (by simp [fiveEndpoints])⟩
  · simp [runCopilotCommand, postJSON] at h
    subst h
    exact Or.inl ⟨"/api/copilot/process-command", rfl, Or.inl (by simp [fiveEndpoints])⟩
  · subst h
    exact Or.inr (by simp [legacyUploadPDFRequest, fiveEndpoints])

/-- Witness for the amended C2 theorem at a concrete copilot request. -/
theorem frontend_endpoint_surface_witness :
    (∃ p, (postJSONRequest env0 "/api/copilot/process-command"
        (Json.obj [("command", Json.str "hi")])).url = env0.base ++ p ∧
      (p ∈ fiveEndpoints ∨ ∃ idStr, p = "/api/refresh-summary/" ++ idStr)) ∨
    (postJSONRequest env0 "/api/copilot/process-command"
        (Json.obj [("command", Json.str "hi")])).url ∈ fiveEndpoints :=
  frontend_endpoint_surface env0 fetchEmptyObj st0 none "hi" "now" none
    (postJSONRequest env0 "/api/copilot/process-command"
      (Json.obj [("command", Json.str "hi")]))
    (Or.inr (Or.inr (Or.inr (Or.inr (Or.inr (Or.inl (by
      simp [runCopilotCommand, postJSON])))))))

/-- C3: when the refresh endpoint answers with the spec-modelled refresh
response for the stored record, the record at the same position of the
updated summaries list keeps its id and filename while its summary and
generation_method come from the response. -/
theorem refreshSummary_preserves_id_and_filename (env : Env) (fetch : Fetch)
    (st : AppState) (i : Nat) (rec idv : Json) (ns nm : String)
    (hrec : st.summaries[i]? = some rec)
    (hid : jget "id" rec = some idv)
    (hresp : (fetch (postJSONRequest env
        ("/api/refresh-summary/" ++ jsTemplate (some idv)) (Json.obj []))).jsonBody
      = refreshResponse rec ns nm) :
    ∃ rec2 : Json,
      (refreshSummary env fetch st (some idv)).1.summaries[i]? = some rec2 ∧
      jget "id" rec2 = jget "id" rec ∧
      jget "filename" rec2 = jget "filename" rec ∧
      jget "summary" rec2 = some (Json.str ns) ∧
      jget "generation_method" rec2 = some (Json.str nm) := by
  obtain ⟨o, ho⟩ := jget_obj_of_some hid
  refine ⟨jsSpread rec (refreshResponse rec ns nm), ?_, ?_, ?_, ?_, ?_⟩
  · have hcond : jsEqOpt (jget "id" rec) (some idv) = true := by
      rw [hid]
      exact Json.beq_refl idv
    simp only [refreshSummary, postJSON]
    rw [List.getElem?_map, hrec]
    simp [hcond, hresp]
  · rw [jget_jsSpread_some hid, jget_refreshResponse_id, hid]
    simp
  · cases hf : jget "filename" rec with
    | none =>
      rw [jget_jsSpread_none ho hf, jget_refreshResponse_filename]
      exact hf
    | some fv =>
      rw [jget_jsSpread_some hf, jget_refreshResponse_filename, hf]
      simp
  · cases hs : jget "summary" rec with
    | none => rw [jget_jsSpread_none ho hs, jget_refreshResponse_summary]
    | some sv =>
      rw [jget_jsSpread_some hs, jget_refreshResponse_summary]
      simp
  · cases hm : jget "generation_method" rec with
    | none => rw [jget_jsSpread_none ho hm, jget_refreshResponse_method]
    | some mv =>
      rw [jget_jsSpread_some hm, jget_refreshResponse_method]
      simp

/-- Witness for C3 on the concrete record rec0. -/
theorem refreshSummary_preserves_id_and_filename_witness :
    ∃ rec2 : Json,
      (refreshSummary env0 fetchRefresh0 st0 (some (Json.num 1))).1.summaries[0]?
          = some rec2 ∧
      jget "id" rec2 = jget "id" rec0 ∧
      jget "filename" rec2 = jget "filename" rec0 ∧
      jget "summary" rec2 = some (Json.str "fresh text") ∧
      jget "generation_method" rec2 = some (Json.str "keyword-fallback") :=
  refreshSummary_preserves_id_and_filename env0 fetchRefresh0 st0 0 rec0 (Json.num 1)
    "fresh text" "keyword-fallback" rfl (by simp [rec0, jget, lookupField]) rfl

/-- C4: refreshSummary keeps the length of the summaries list, and every
record whose id differs from the requested one stays unchanged at its
position. -/
theorem refreshSummary_frame (env : Env) (fetch : Fetch) (st : AppState)
    (id : Option Json) (i : Nat) (rec : Json)
    (hrec : st.summaries[i]? = some rec)
    (hdiff : jsEqOpt (jget "id" rec) id = false) :
    (refreshSummary env fetch st id).1.summaries.length = st.summaries.length ∧
    (refreshSummary env fetch st id).1.summaries[i]? = some rec := by
  constructor
  · simp [refreshSummary]
  · simp only [refreshSummary]
    rw [List.getElem?_map, hrec]
    simp [hdiff]

/-- Witness for C4: refreshing id 2 leaves the record with id 1 alone. -/
theorem refreshSummary_frame_witness :
    (refreshSummary env0 fetchEmptyObj st0 (some (Json.num 2))).1.summaries.length
        = st0.summaries.length ∧
    (refreshSummary env0 fetchEmptyObj st0 (some (Json.num 2))).1.summaries[0]?
        = some rec0 :=
  refreshSummary_frame env0 fetchEmptyObj st0 (some (Json.num 2)) 0 rec0 rfl
    (by simp [rec0, jget, lookupField, jsEqOpt, Json.beq])

/-- C5: notes are append-only on the frontend surface: createNote leaves
the notes list unchanged or appends exactly one note at the end, and the
other operations never touch it. -/
theorem notes_append_only (env : Env) (fetch : Fetch) (st : AppState)
    (now cmd : String) (id : Option Json) :
    ((createNote env fetch st).1.notes = st.notes ∨
      ∃ n, (createNote env fetch st).1.notes = st.notes ++ [n]) ∧
    (createSchedule env fetch st now).1.notes = st.notes ∧
    (uploadPDF env fetch st).1.notes = st.notes ∧
    (refreshSummary env fetch st id).1.notes = st.notes ∧
    (runCopilotCommand env fetch st cmd).1.notes = st.notes := by
  refine ⟨?_, rfl, ?_, rfl, rfl⟩
  · by_cases h : st.noteTitle = "" ∨ st.noteContent = ""
    · left
      simp [createNote, h]
    · right
      exact ⟨(postJSON env fetch "/api/notes"
          (Json.obj [("title", Json.str st.noteTitle),
            ("content", Json.str st.noteContent)])).1,
        by simp [createNote, h]⟩
  · cases hsel : st.selectedFile <;> simp [uploadPDF, hsel]

/-- C6: whenever the AI path fails — network disallowed or the AI
collaborator returning no output — summarize takes the keyword fallback:
the method tag is keyword-fallback, the summary is non-empty whenever the
input has any non-whitespace token, and tokenless (empty or
whitespace-only) input yields the defined empty-content result, never an
error. -/
theorem summarize_fallback_contract (text : String) (allowNetwork : Bool)
    (aiResult : Option String)
    (hfail : allowNetwork = false ∨ aiResult = none) :
    (summarize text allowNetwork aiResult).method = "keyword-fallback" ∧
    (tokenizeLower text ≠ [] → (summarize text allowNetwork aiResult).summary ≠ "") ∧
    (tokenizeLower text = [] →
      summarize text allowNetwork aiResult = emptyContentResult) := by
  have hsum : summarize text allowNetwork aiResult = keywordFallback text := by
    rcases hfail with h | h
    · simp [summarize, h]
    · cases allowNetwork <;> simp [summarize, h]
  rw [hsum]
  exact ⟨keywordFallback_method text,
    fun h => keywordFallback_summary_ne_empty text h,
    fun h => keywordFallback_empty text h⟩

/-- Witness for C6 on a concrete offline call and a whitespace-only
input. -/
theorem summarize_fallback_contract_witness :
    ((summarize "offline fallback of the summarizer" false none).method
        = "keyword-fallback" ∧
      (summarize "offline fallback of the summarizer" false none).summary ≠ "") ∧
    summarize "  " false none = emptyContentResult :=
  ⟨⟨(summarize_fallback_contract "offline fallback of the summarizer" false none
        (Or.inl rfl)).1,
    (summarize_fallback_contract "offline fallback of the summarizer" false none
        (Or.inl rfl)).2.1 (by decide)⟩,
   (summarize_fallback_contract "  " false none (Or.inl rfl)).2.2 (by decide)⟩

/-- C7: the command router is a deterministic function — identical input
strings give identical results — and any input matching none of the
intent keywords yields the help intent with the canned help response. -/
theorem route_deterministic_and_unmatched :
    (∀ c1 c2 : String, c1 = c2 → route c1 = route c2) ∧
    (∀ c : String,
      strContains c "summarize" = false → strContains c "pdf" = false →
      strContains c "remind" = false → strContains c "schedule" = false →
      strContains c "note" = false → strContains c "summaries" = false →
      strContains c "show" = false →
      route c = ⟨Intent.help, helpResponse⟩) := by
  constructor
  · intro c1 c2 h
    rw [h]
  · intro c h1 h2 h3 h4 h5 h6 h7
    simp [route, h1, h2, h3, h4, h5, h6, h7]

/-- Witness for C7: gibberish routes to the canned help response, and
routing a concrete command twice agrees. -/
theorem route_deterministic_and_unmatched_witness :
    route "asdkjalksd" = ⟨Intent.help, helpResponse⟩ ∧
    route "Summarize this PDF document" = route "Summarize this PDF document" :=
  ⟨route_deterministic_and_unmatched.2 "asdkjalksd" (by decide) (by decide)
      (by decide) (by decide) (by decide) (by decide) (by decide),
   route_deterministic_and_unmatched.1 "Summarize this PDF document"
      "Summarize this PDF document" rfl⟩

/-- C8: createNote with an empty title or content sends no request and
changes nothing; with both fields non-empty it clears both input fields
after the single note request. -/
theorem createNote_guard (env : Env) (fetch : Fetch) (st : AppState) :
    ((st.noteTitle = "" ∨ st.noteContent = "") → createNote env fetch st = (st, [])) ∧
    (st.noteTitle ≠ "" → st.noteContent ≠ "" →
      (createNote env fetch st).1.noteTitle = "" ∧
      (createNote env fetch st).1.noteContent = "" ∧
      (createNote env fetch st).2.length = 1) := by
  constructor
  · intro h
    simp [createNote, h]
  · intro h1 h2
    have hcond : ¬(st.noteTitle = "" ∨ st.noteContent = "") := by
      rintro (h | h)
      exacts [h1 h, h2 h]
    simp [createNote, hcond]

/-- Witness for C8 at an empty form and at a filled form. -/
theorem createNote_guard_witness :
    createNote env0 fetchEmptyObj st0 = (st0, []) ∧
    ((createNote env0 fetchEmptyObj stNote).1.noteTitle = "" ∧
      (createNote env0 fetchEmptyObj stNote).1.noteContent = "" ∧
      (createNote env0 fetchEmptyObj stNote).2.length = 1) :=
  ⟨(createNote_guard env0 fetchEmptyObj st0).1 (Or.inl rfl),
   (createNote_guard env0 fetchEmptyObj stNote).2 (by decide) (by decide)⟩

/-- C9: uploadPDF with no selected file sends no request and changes
nothing; with a selected file it appends exactly the upload response to
the end of summaries, clears the selection, and sends exactly the one
upload request. -/
theorem uploadPDF_guard (env : Env) (fetch : Fetch) (st : AppState) :
    (st.selectedFile = none → uploadPDF env fetch st = (st, [])) ∧
    (∀ f : JsFile, st.selectedFile = some f →
      (uploadPDF env fetch st).1.summaries
          = st.summaries ++ [(postFile env fetch "/api/upload-pdf" f).1] ∧
      (uploadPDF env fetch st).1.selectedFile = none ∧
      (uploadPDF env fetch st).2 = [(postFile env fetch "/api/upload-pdf" f).2]) := by
  constructor
  · intro h
    simp [uploadPDF, h]
  · intro f hf
    simp [uploadPDF, hf]

/-- Witness for C9 at a state without and a state with a selected
file. -/
theorem uploadPDF_guard_witness :
    uploadPDF env0 fetchEmptyObj st0 = (st0, []) ∧
    ((uploadPDF env0 fetchEmptyObj stFile).1.summaries
        = stFile.summaries ++ [(postFile env0 fetchEmptyObj "/api/upload-pdf" ⟨"doc.pdf"⟩).1] ∧
      (uploadPDF env0 fetchEmptyObj stFile).1.selectedFile = none ∧
      (uploadPDF env0 fetchEmptyObj stFile).2
        = [(postFile env0 fetchEmptyObj "/api/upload-pdf" ⟨"doc.pdf"⟩).2]) :=
  ⟨(uploadPDF_guard env0 fetchEmptyObj st0).1 rfl,
   (uploadPDF_guard env0 fetchEmptyObj stFile).2 ⟨"doc.pdf"⟩ rfl⟩

/-- C10: postFile sends exactly the single X-API-Key header and no
Content-Type, postJSON sends both X-API-Key and the JSON Content-Type,
and all three helpers return the parsed JSON body of the response. -/
theorem api_helper_headers_and_results (env : Env) (fetch : Fetch) (endpoint : String)
    (data : Json) (file : JsFile) :
    (postFileRequest env endpoint file).headers = [("X-API-Key", env.key)] ∧
    lookupField "Content-Type" (postFileRequest env endpoint file).headers = none ∧
    lookupField "X-API-Key" (postJSONRequest env endpoint data).headers = some env.key ∧
    lookupField "Content-Type" (postJSONRequest env endpoint data).headers
        = some "application/json" ∧
    (postJSON env fetch endpoint data).1
        = (fetch (postJSONRequest env endpoint data)).jsonBody ∧
    (getJSON env fetch endpoint).1 = (fetch (getJSONRequest env endpoint)).jsonBody ∧
    (postFile env fetch endpoint file).1
        = (fetch (postFileRequest env endpoint file)).jsonBody := by
  refine ⟨rfl, ?_, ?_, ?_, rfl, rfl, rfl⟩ <;>
    simp [postFileRequest, postJSONRequest, defaultHeaders, lookupField]
